import Mathlib

/-!
Shallow embedding of the negotiation-and-pricing core of the otoz-chat-demo
repository: the incoterm price breakdown (`calculate_total_price` in
`src/utils.py`, with the shipping constants of `src/config.py`) and the
`SalesAgent` negotiation state machine of `src/app.py`
(`initiate_negotiation`, `_handle_negotiation`, `_handle_discount_inquiry`,
`_handle_accept_offer`).

Prices are modelled as exact rationals (the Python code computes over
floats; all the constants here, such as `0.88` or `0.025`, are decimal
literals, so the rational model is the exact-arithmetic reading of the same
formulas).  Python's `int(x)` truncation toward zero is modelled by
`pyInt`, and Python truthiness of an optional numeric field (`None` and `0`
are falsy) by `truthy`.
-/

namespace Otoz

/-- `DOMESTIC_TRANSPORT` from `src/config.py`. -/
def DOMESTIC_TRANSPORT : ℚ := 50000

/-- `FREIGHT_COST` from `src/config.py`. -/
def FREIGHT_COST : ℚ := 150000

/-- `INSURANCE_RATE` from `src/config.py`. -/
def INSURANCE_RATE : ℚ := 0.025

/-- `NEGOTIATION_MAX_DISCOUNT` from `src/app.py`. -/
def NEGOTIATION_MAX_DISCOUNT : ℚ := 0.12

/-- The price-breakdown record built by `calculate_total_price`
(`src/utils.py`): the four components plus the `total_price` key added at
the end. -/
structure Breakdown where
  base_price : ℚ
  domestic_transport : ℚ
  freight_cost : ℚ
  insurance : ℚ
  total_price : ℚ
deriving DecidableEq, Repr

/-- `calculate_total_price(base_price, option)` from `src/utils.py`
lines 68-76.  The shipping option is an `Option String` so that Python's
`None` (and any other non-incoterm value) is representable; membership
tests mirror `option in ["FOB", "C&F", "CIF"]` etc.  The function is total:
the Python code contains no validation and no raise. -/
def calculate_total_price (base_price : ℚ) (option : Option String) : Breakdown :=
  let domestic_transport : ℚ :=
    if option = some "FOB" ∨ option = some "C&F" ∨ option = some "CIF" then
      DOMESTIC_TRANSPORT else 0
  let freight_cost : ℚ :=
    if option = some "C&F" ∨ option = some "CIF" then FREIGHT_COST else 0
  let insurance : ℚ :=
    if option = some "CIF" then (base_price + freight_cost) * INSURANCE_RATE else 0
  { base_price := base_price
    domestic_transport := domestic_transport
    freight_cost := freight_cost
    insurance := insurance
    total_price := base_price + domestic_transport + freight_cost + insurance }

/-- Python's `int(x)` on a number: truncation toward zero. -/
def pyInt (x : ℚ) : ℤ := if 0 ≤ x then ⌊x⌋ else ⌈x⌉

/-- The rounding idiom `int(x / 1000) * 1000` used throughout
`src/app.py` for counter-offers and the opening discount. -/
def floor1000 (x : ℚ) : ℚ := ((pyInt (x / 1000) * 1000 : ℤ) : ℚ)

/-- The `step` field of the negotiation context; the source stores strings
`'initial'`, `'countered'`, `'accepted'` and assigns no other value. -/
inductive Step
  | initial
  | countered
  | accepted
deriving DecidableEq, Repr

/-- The `negotiation_context` dict created by `initiate_negotiation`
(`src/app.py` line 244): `original_price`, `floor_price`, `step`,
`last_agent_offer`, and the `final_price` key that handlers add later
(absent = `none`).  The `car` payload is not part of the pricing logic and
is omitted. -/
structure Ctx where
  original_price : ℚ
  floor_price : ℚ
  step : Step
  last_agent_offer : Option ℚ
  final_price : Option ℚ
deriving DecidableEq, Repr

/-- Python truthiness of an optional numeric field: `None` and `0` are
falsy, every other number truthy. -/
def truthy : Option ℚ → Bool
  | none => false
  | some x => decide (x ≠ 0)

/-- The guard `if ctx.get('last_agent_offer') and offer_amount_base >=
ctx['last_agent_offer']` of `src/app.py` line 258. -/
def lao_gate (lao : Option ℚ) (offer : ℚ) : Bool :=
  match lao with
  | none => false
  | some x => decide (x ≠ 0) && decide (offer ≥ x)

/-- `initiate_negotiation` (`src/app.py` lines 241-245), restricted to the
context it creates from the car's listed price. -/
def initiate_negotiation (original_price : ℚ) : Ctx :=
  { original_price := original_price
    floor_price := original_price * (1 - NEGOTIATION_MAX_DISCOUNT)
    step := .initial
    last_agent_offer := none
    final_price := none }

/-- The assistant replies relevant to the negotiation core, abstracted to
their kind and the price they quote. -/
inductive Msg
  | acceptAtOffer (p : ℚ)    -- line 259: accept the buyer's own offer
  | acceptAtAsking (p : ℚ)   -- line 261: accept at the asking price
  | counterAt (p : ℚ)        -- line 266: midpoint counter-offer
  | floorReport (p : ℚ)      -- line 268: "the absolute best I can do"
  | discountOpening (p : ℚ)  -- line 251: opening discount price
  | askWhichCarDiscount      -- line 248: discount inquiry with no session
  | selectCarFirst           -- line 271: accept with no session
  | dealConfirmed (p : ℚ)    -- line 276: deal confirmed by accept()
  | askFinalPrice            -- line 279: "What final price are we agreeing on?"
deriving DecidableEq, Repr

/-- `_handle_negotiation(offer_amount_base)` (`src/app.py` lines 254-268)
on an existing context: the four-branch offer ladder.  The two guards on
the counter-offer are applied in source order. -/
def handle_negotiation (ctx : Ctx) (offer_amount_base : ℚ) : Ctx × Msg :=
  let price := ctx.original_price
  let floor_price := ctx.floor_price
  if lao_gate ctx.last_agent_offer offer_amount_base then
    ({ ctx with final_price := some offer_amount_base, step := .accepted },
     .acceptAtOffer offer_amount_base)
  else if offer_amount_base ≥ price then
    ({ ctx with final_price := some price, step := .accepted },
     .acceptAtAsking price)
  else if offer_amount_base ≥ floor_price then
    let counter_offer := floor1000 ((offer_amount_base + price) / 2)
    let counter_offer :=
      if counter_offer ≥ price then floor1000 (price * 0.98) else counter_offer
    let counter_offer :=
      if counter_offer ≤ offer_amount_base then floor1000 (offer_amount_base * 1.02)
      else counter_offer
    ({ ctx with final_price := some counter_offer, step := .countered,
                last_agent_offer := some counter_offer },
     .counterAt counter_offer)
  else
    ({ ctx with final_price := some floor_price, step := .countered,
                last_agent_offer := some floor_price },
     .floorReport floor_price)

/-- `_handle_discount_inquiry` (`src/app.py` lines 247-252) on an existing
context: quotes `int((price * 0.97) / 1000) * 1000` and records it as
`last_agent_offer`, step `countered`; `final_price` is not touched. -/
def handle_discount_inquiry (ctx : Ctx) : Ctx × Msg :=
  let price := ctx.original_price
  let opening_discount_price := floor1000 (price * 0.97)
  ({ ctx with last_agent_offer := some opening_discount_price, step := .countered },
   .discountOpening opening_discount_price)

/-- The slice of `st.session_state` the negotiation handlers read and
write: the live context, the recorded deal, and the pending invoice. -/
structure AgentState where
  negotiation_context : Option Ctx
  last_deal_context : Option Ctx
  invoice_to_render : Option Ctx
deriving DecidableEq, Repr

/-- `_handle_accept_offer` (`src/app.py` lines 270-279).  `not
price_to_accept` is Python truthiness (`None` or `0` falsy); when it is
falsy and the step is `'initial'` the handler substitutes the original
price, and a truthy price concludes the deal (context copied to
`last_deal_context` and `invoice_to_render`, live context cleared). -/
def handle_accept_offer (s : AgentState) : AgentState × Msg :=
  match s.negotiation_context with
  | none => (s, .selectCarFirst)
  | some ctx =>
    let price_to_accept := ctx.final_price
    let price_to_accept :=
      if truthy price_to_accept = false ∧ ctx.step = Step.initial then
        some ctx.original_price
      else price_to_accept
    if truthy price_to_accept = true then
      let p := price_to_accept.getD 0
      let ctx' := { ctx with final_price := some p }
      ({ negotiation_context := none, last_deal_context := some ctx',
         invoice_to_render := some ctx' },
       .dealConfirmed p)
    else
      (s, .askFinalPrice)

/-- The structured commands the chat layer can feed the negotiation core
(`_parse_intent` maps free text to these; parsing itself is out of
scope). -/
inductive Cmd
  | submit_offer (amount : ℚ)
  | discount_inquiry
  | accept_offer
  | reject_offer
deriving DecidableEq, Repr

/-- One dispatch of `SalesAgent.respond` restricted to the negotiation
handlers.  `_handle_negotiation` with no context returns silently
(line 255); `_handle_discount_inquiry` with no context asks which car
(line 248); `_handle_reject_offer` clears the context (line 191). -/
def agent_step (s : AgentState) : Cmd → AgentState × Option Msg
  | .submit_offer a =>
    match s.negotiation_context with
    | none => (s, none)
    | some ctx =>
      let r := handle_negotiation ctx a
      ({ s with negotiation_context := some r.1 }, some r.2)
  | .discount_inquiry =>
    match s.negotiation_context with
    | none => (s, some .askWhichCarDiscount)
    | some ctx =>
      let r := handle_discount_inquiry ctx
      ({ s with negotiation_context := some r.1 }, some r.2)
  | .accept_offer =>
    let r := handle_accept_offer s
    (r.1, some r.2)
  | .reject_offer => ({ s with negotiation_context := none }, none)

/-- Running a sequence of commands, collecting every message emitted. -/
def run (s : AgentState) : List Cmd → AgentState × List Msg
  | [] => (s, [])
  | c :: cs =>
    let r := agent_step s c
    let rest := run r.1 cs
    (rest.1, (r.2.toList) ++ rest.2)

/-- The agent state right after `initiate_negotiation` on a car listed at
`p`, before any command. -/
def initState (p : ℚ) : AgentState :=
  { negotiation_context := some (initiate_negotiation p)
    last_deal_context := none
    invoice_to_render := none }

/-! ### Arithmetic facts about the rounding idiom -/

theorem pyInt_of_nonneg {x : ℚ} (h : 0 ≤ x) : pyInt x = ⌊x⌋ := if_pos h

theorem floor1000_le {x : ℚ} (h : 0 ≤ x) : floor1000 x ≤ x := by
  have hq : (0:ℚ) ≤ x / 1000 := by positivity
  have hf : ((⌊x / 1000⌋ : ℤ) : ℚ) ≤ x / 1000 := Int.floor_le _
  unfold floor1000
  rw [pyInt_of_nonneg hq]
  push_cast
  linarith

theorem sub_lt_floor1000 {x : ℚ} (h : 0 ≤ x) : x - 1000 < floor1000 x := by
  have hq : (0:ℚ) ≤ x / 1000 := by positivity
  have hf : x / 1000 < ((⌊x / 1000⌋ : ℤ) : ℚ) + 1 := Int.lt_floor_add_one _
  unfold floor1000
  rw [pyInt_of_nonneg hq]
  push_cast
  linarith

/-- The midpoint counter, rounded down, stays below the asking price. -/
theorem midpoint_floor1000_lt {a pr : ℚ} (h0 : 0 ≤ a) (hlt : a < pr) :
    floor1000 ((a + pr) / 2) < pr := by
  have hmid : (0:ℚ) ≤ (a + pr) / 2 := by linarith
  have h1 : floor1000 ((a + pr) / 2) ≤ (a + pr) / 2 := floor1000_le hmid
  linarith

/-- The bump guard `int((offer * 1.02) / 1000) * 1000` lands strictly above
the offer once the offer is at least 50,000 (so that the two percent exceed
the 1,000 lost to rounding). -/
theorem bump_gt {a : ℚ} (hbig : 50000 ≤ a) : a < floor1000 (a * 1.02) := by
  have h0 : (0:ℚ) ≤ a * 1.02 := by nlinarith
  have h1 : a * 1.02 - 1000 < floor1000 (a * 1.02) := sub_lt_floor1000 h0
  nlinarith

/-- The gate of `src/app.py` line 258 is monotone in the offer. -/
theorem lao_gate_mono {lao : Option ℚ} {a1 a2 : ℚ} (h : a1 ≤ a2)
    (hg : lao_gate lao a1 = true) : lao_gate lao a2 = true := by
  cases lao with
  | none => simp [lao_gate] at hg
  | some x =>
    simp only [lao_gate, Bool.and_eq_true, decide_eq_true_eq] at hg ⊢
    exact ⟨hg.1, le_trans hg.2 h⟩

/-! ### Claims about the price calculator -/

/-- Claim C2, counterexample: `calculate_total_price` does not fail on a
non-positive base price.  `calculate_total_price 0 "FOB"` returns a full
breakdown with total 50,000, and `calculate_total_price (-100) "CIF"`
returns a breakdown with total 203,647.5; no `InvalidPriceError` exists in
the code. -/
theorem claim_C2_counterexample :
    calculate_total_price 0 (some "FOB") =
      { base_price := 0, domestic_transport := 50000, freight_cost := 0,
        insurance := 0, total_price := 50000 } ∧
    calculate_total_price (-100) (some "CIF") =
      { base_price := -100, domestic_transport := 50000, freight_cost := 150000,
        insurance := 3747.5, total_price := 203647.5 } := by
  constructor <;>
    · simp [calculate_total_price, DOMESTIC_TRANSPORT, FREIGHT_COST, INSURANCE_RATE]
      try norm_num

/-- Claim C2, amended: `calculate_total_price` performs no validation of
`base_price` and never fails; for every `base_price` (non-positive values
included) and every option it returns a breakdown that echoes the base
price and whose `total_price` is the sum of the four components. -/
theorem claim_C2_amended (base_price : ℚ) (option : Option String) :
    (calculate_total_price base_price option).base_price = base_price ∧
    (calculate_total_price base_price option).total_price =
      (calculate_total_price base_price option).base_price +
        (calculate_total_price base_price option).domestic_transport +
        (calculate_total_price base_price option).freight_cost +
        (calculate_total_price base_price option).insurance := by
  simp [calculate_total_price]

/-- Claim C8 (confirmed): for every positive base price, the CIF insurance
is `insurance_rate × (base_price + freight_cost)` — computed on the
cost-and-freight value, not the base price alone — and with the configured
constants, `calculate_total_price 1000000 "CIF"` yields insurance 28,750
and total 1,228,750. -/
theorem claim_C8 (base_price : ℚ) (_hpos : 0 < base_price) :
    (calculate_total_price base_price (some "CIF")).insurance =
      INSURANCE_RATE * (base_price + FREIGHT_COST) ∧
    (calculate_total_price 1000000 (some "CIF")).insurance = 28750 ∧
    (calculate_total_price 1000000 (some "CIF")).total_price = 1228750 := by
  refine ⟨?_, ?_, ?_⟩ <;>
    · simp only [calculate_total_price, DOMESTIC_TRANSPORT, FREIGHT_COST, INSURANCE_RATE]
      norm_num
      try ring

/-- Witness for C8 at base price 1,000,000. -/
theorem claim_C8_witness :
    (0:ℚ) < 1000000 ∧
    (calculate_total_price 1000000 (some "CIF")).insurance =
      INSURANCE_RATE * (1000000 + FREIGHT_COST) :=
  ⟨by norm_num, (claim_C8 1000000 (by norm_num)).1⟩

/-- Claim C9 (confirmed): for every base price and every shipping option
outside {FOB, C&F, CIF} — `None` or an arbitrary string — the calculator
does not fail and returns a breakdown with all shipping components 0 and
`total_price = base_price`. -/
theorem claim_C9 (base_price : ℚ) (option : Option String)
    (h : option ≠ some "FOB" ∧ option ≠ some "C&F" ∧ option ≠ some "CIF") :
    calculate_total_price base_price option =
      { base_price := base_price, domestic_transport := 0, freight_cost := 0,
        insurance := 0, total_price := base_price } := by
  obtain ⟨h1, h2, h3⟩ := h
  simp [calculate_total_price, h1, h2, h3]

/-- Witness for C9 at base price 12,345 and option `None`. -/
theorem claim_C9_witness :
    ((none : Option String) ≠ some "FOB" ∧ (none : Option String) ≠ some "C&F" ∧
      (none : Option String) ≠ some "CIF") ∧
    calculate_total_price 12345 none =
      { base_price := 12345, domestic_transport := 0, freight_cost := 0,
        insurance := 0, total_price := 12345 } :=
  ⟨⟨by simp, by simp, by simp⟩, claim_C9 12345 none ⟨by simp, by simp, by simp⟩⟩

/-! ### Claims about accept() and the discount inquiry -/

/-- Claim C1, counterexample: `accept()` on a fresh session (state
`initial`, no `final_price`) does not prompt for a price — line 273 of
`src/app.py` substitutes the original price, so the deal is confirmed at
1,000,000, the deal context is recorded and the live session cleared. -/
theorem claim_C1_counterexample :
    (handle_accept_offer (initState 1000000)).2 = .dealConfirmed 1000000 ∧
    (handle_accept_offer (initState 1000000)).1.last_deal_context =
      some { initiate_negotiation 1000000 with final_price := some 1000000 } ∧
    (handle_accept_offer (initState 1000000)).1.negotiation_context = none := by
  refine ⟨?_, ?_, ?_⟩ <;>
    · simp [handle_accept_offer, initState, initiate_negotiation, truthy]
      try norm_num

/-- Claim C1, amended: `accept()` on a session in state `initial` with no
`final_price` and a non-zero original price fabricates an accepted deal at
the original price: `final_price` is set to `original_price`, the deal is
copied to `last_deal_context` and `invoice_to_render`, and the live
session is cleared; no prompt for a price is issued in this state. -/
theorem claim_C1_amended (s : AgentState) (ctx : Ctx)
    (hctx : s.negotiation_context = some ctx) (hstep : ctx.step = .initial)
    (hfin : ctx.final_price = none) (hp : ctx.original_price ≠ 0) :
    handle_accept_offer s =
      ({ negotiation_context := none,
         last_deal_context := some { ctx with final_price := some ctx.original_price },
         invoice_to_render := some { ctx with final_price := some ctx.original_price } },
       .dealConfirmed ctx.original_price) := by
  simp [handle_accept_offer, hctx, hfin, hstep, truthy, hp]

/-- Witness for the amended C1 on a fresh session at price 777,000. -/
theorem claim_C1_amended_witness :
    ((initState 777000).negotiation_context = some (initiate_negotiation 777000) ∧
      (initiate_negotiation 777000).step = Step.initial ∧
      (initiate_negotiation 777000).final_price = none ∧
      (initiate_negotiation 777000).original_price ≠ 0) ∧
    handle_accept_offer (initState 777000) =
      ({ negotiation_context := none,
         last_deal_context :=
           some { initiate_negotiation 777000 with
                    final_price := some (initiate_negotiation 777000).original_price },
         invoice_to_render :=
           some { initiate_negotiation 777000 with
                    final_price := some (initiate_negotiation 777000).original_price } },
       .dealConfirmed (initiate_negotiation 777000).original_price) :=
  ⟨⟨rfl, rfl, rfl, by norm_num [initiate_negotiation]⟩,
   claim_C1_amended (initState 777000) (initiate_negotiation 777000) rfl rfl rfl
     (by norm_num [initiate_negotiation])⟩

/-- Claim C10 (confirmed): a discount inquiry on an active session whose
`final_price` is still unset leaves the session in step `countered` with
`last_agent_offer` the opening discount price (`int((price * 0.97) / 1000)
* 1000`) and `final_price` still unset, and a subsequent `accept()` in
exactly that state does not confirm the quoted discount price: it responds
asking what final price is being agreed and leaves the whole agent state
unchanged. -/
theorem claim_C10 (s : AgentState) (ctx : Ctx)
    (hctx : s.negotiation_context = some ctx) (hfin : ctx.final_price = none) :
    ∃ ctx', (agent_step s .discount_inquiry).1.negotiation_context = some ctx' ∧
      ctx'.step = .countered ∧
      ctx'.last_agent_offer = some (floor1000 (ctx.original_price * 0.97)) ∧
      ctx'.final_price = none ∧
      (agent_step (agent_step s .discount_inquiry).1 .accept_offer).2 =
        some .askFinalPrice ∧
      (agent_step (agent_step s .discount_inquiry).1 .accept_offer).1 =
        (agent_step s .discount_inquiry).1 := by
  refine ⟨{ ctx with last_agent_offer := some (floor1000 (ctx.original_price * 0.97)), step := .countered }, ?_, rfl, rfl, hfin, ?_, ?_⟩ <;>
    simp [agent_step, hctx, handle_discount_inquiry, handle_accept_offer, hfin, truthy]

/-- Witness for C10 on a fresh session at price 1,000,000 (opening
discount 970,000). -/
theorem claim_C10_witness :
    ((initState 1000000).negotiation_context = some (initiate_negotiation 1000000) ∧
      (initiate_negotiation 1000000).final_price = none) ∧
    (∃ ctx', (agent_step (initState 1000000) .discount_inquiry).1.negotiation_context =
        some ctx' ∧
      ctx'.step = .countered ∧
      ctx'.last_agent_offer =
        some (floor1000 ((initiate_negotiation 1000000).original_price * 0.97)) ∧
      ctx'.final_price = none ∧
      (agent_step (agent_step (initState 1000000) .discount_inquiry).1 .accept_offer).2 =
        some .askFinalPrice ∧
      (agent_step (agent_step (initState 1000000) .discount_inquiry).1 .accept_offer).1 =
        (agent_step (initState 1000000) .discount_inquiry).1) :=
  ⟨⟨rfl, rfl⟩, claim_C10 (initState 1000000) (initiate_negotiation 1000000) rfl rfl⟩

/-! ### Claims about submit_offer -/

/-- Claim C3, counterexample: a below-floor offer does not leave the
session untouched.  On a fresh session at price 1,000,000 (floor 880,000),
`submit_offer(800000)` reports the floor but also sets `final_price =
880000`, `last_agent_offer = 880000`, and `step = countered` — not
`initial` with `final_price` unset as the claim states. -/
theorem claim_C3_counterexample :
    (handle_negotiation (initiate_negotiation 1000000) 800000).1.final_price =
      some 880000 ∧
    (handle_negotiation (initiate_negotiation 1000000) 800000).1.step =
      Step.countered ∧
    (handle_negotiation (initiate_negotiation 1000000) 800000).1.last_agent_offer =
      some 880000 ∧
    (handle_negotiation (initiate_negotiation 1000000) 800000).2 =
      .floorReport 880000 := by
  refine ⟨?_, ?_, ?_, ?_⟩ <;>
    · norm_num [handle_negotiation, initiate_negotiation, lao_gate,
        NEGOTIATION_MAX_DISCOUNT]

/-- Claim C3, amended: for every session and every offer strictly below
the floor (with the line-258 gate not firing), `submit_offer` reports the
floor price as the engine's best possible price and counters at the floor:
it sets `final_price` and `last_agent_offer` to `floor_price` and the step
to `countered`, leaving the session open for a higher subsequent offer. -/
theorem claim_C3_amended (ctx : Ctx) (a : ℚ)
    (hgate : lao_gate ctx.last_agent_offer a = false)
    (hp : a < ctx.original_price) (hf : a < ctx.floor_price) :
    handle_negotiation ctx a =
      ({ ctx with final_price := some ctx.floor_price, step := .countered,
                  last_agent_offer := some ctx.floor_price },
       .floorReport ctx.floor_price) := by
  simp [handle_negotiation, hgate, not_le.mpr hp, not_le.mpr hf]

/-- Witness for the amended C3: offer 800,000 against price 1,000,000. -/
theorem claim_C3_amended_witness :
    (lao_gate (initiate_negotiation 1000000).last_agent_offer 800000 = false ∧
      (800000:ℚ) < (initiate_negotiation 1000000).original_price ∧
      (800000:ℚ) < (initiate_negotiation 1000000).floor_price) ∧
    handle_negotiation (initiate_negotiation 1000000) 800000 =
      ({ initiate_negotiation 1000000 with
           final_price := some (initiate_negotiation 1000000).floor_price,
           step := .countered,
           last_agent_offer := some (initiate_negotiation 1000000).floor_price },
       .floorReport (initiate_negotiation 1000000).floor_price) :=
  ⟨⟨rfl, by norm_num [initiate_negotiation],
      by norm_num [initiate_negotiation, NEGOTIATION_MAX_DISCOUNT]⟩,
   claim_C3_amended (initiate_negotiation 1000000) 800000 rfl
     (by norm_num [initiate_negotiation])
     (by norm_num [initiate_negotiation, NEGOTIATION_MAX_DISCOUNT])⟩

/-- Claim C7 (confirmed): on a session in step `countered` with a recorded
positive agent counter-offer `X`, any offer `amount ≥ X` is accepted at
the buyer's own figure: step becomes `accepted` and `final_price =
amount`; in particular `submit_offer X` is accepted at `X` itself. -/
theorem claim_C7 (ctx : Ctx) (X a : ℚ)
    (_hstep : ctx.step = .countered) (hlao : ctx.last_agent_offer = some X)
    (hX : 0 < X) (ha : X ≤ a) :
    handle_negotiation ctx a =
      ({ ctx with final_price := some a, step := .accepted },
       .acceptAtOffer a) := by
  have hg : lao_gate ctx.last_agent_offer a = true := by
    simp [lao_gate, hlao, hX.ne', ha]
  simp [handle_negotiation, hg]

/-- Witness for C7: the session countered at 970,000 by the discount
inquiry accepts the matching offer of 970,000. -/
theorem claim_C7_witness :
    ((handle_discount_inquiry (initiate_negotiation 1000000)).1.step =
        Step.countered ∧
      (handle_discount_inquiry (initiate_negotiation 1000000)).1.last_agent_offer =
        some 970000 ∧
      (0:ℚ) < 970000 ∧ (970000:ℚ) ≤ 970000) ∧
    handle_negotiation (handle_discount_inquiry (initiate_negotiation 1000000)).1 970000 =
      ({ (handle_discount_inquiry (initiate_negotiation 1000000)).1 with
           final_price := some 970000, step := .accepted },
       .acceptAtOffer 970000) :=
  ⟨⟨rfl, by norm_num [handle_discount_inquiry, initiate_negotiation, floor1000, pyInt],
      by norm_num, le_refl _⟩,
   claim_C7 _ 970000 970000 rfl
     (by norm_num [handle_discount_inquiry, initiate_negotiation, floor1000, pyInt])
     (by norm_num) (le_refl _)⟩

/-- Claim C4, counterexample: the two guards of lines 264-265 do not keep
the counter below the asking price.  On a fresh session at 1,000,000
(floor 880,000), `submit_offer(999000)` computes midpoint 999,000, the
bump guard fires, and the resulting counter 1,018,000 exceeds the original
price. -/
theorem claim_C4_counterexample :
    (handle_negotiation (initiate_negotiation 1000000) 999000).2 =
      .counterAt 1018000 ∧
    (handle_negotiation (initiate_negotiation 1000000) 999000).1.final_price =
      some 1018000 ∧
    ¬ ((1018000:ℚ) < 1000000) := by
  refine ⟨?_, ?_, by norm_num⟩ <;>
    norm_num [handle_negotiation, initiate_negotiation, lao_gate, floor1000, pyInt,
      NEGOTIATION_MAX_DISCOUNT]

/-- In the midpoint branch (line-258 gate silent, `floor ≤ offer <
price`, offer at least 50,000 so the bump beats the rounding unit) the
counter is recorded in all three fields and lands strictly above the
offer. -/
theorem counter_spec (ctx : Ctx) (a : ℚ)
    (hgate : lao_gate ctx.last_agent_offer a = false)
    (hfl : ctx.floor_price ≤ a) (hlt : a < ctx.original_price)
    (hbig : 50000 ≤ a) :
    ∃ c, handle_negotiation ctx a =
        ({ ctx with final_price := some c, step := .countered, last_agent_offer := some c }, .counterAt c) ∧
      a < c := by
  have h0 : (0:ℚ) ≤ a := by linarith
  have hm : floor1000 ((a + ctx.original_price) / 2) < ctx.original_price :=
    midpoint_floor1000_lt h0 hlt
  simp only [handle_negotiation, hgate, Bool.false_eq_true, if_false, ge_iff_le,
    not_le.mpr hlt, if_pos hfl]
  rw [if_neg (not_le.mpr hm)]
  by_cases hc : floor1000 ((a + ctx.original_price) / 2) ≤ a
  · rw [if_pos hc]
    exact ⟨_, rfl, bump_gt hbig⟩
  · rw [if_neg hc]
    exact ⟨_, rfl, not_le.mp hc⟩

/-- Claim C4, amended: for every session and every offer with `floor_price
≤ amount < original_price`, the line-258 gate not firing and `amount ≥
50,000` (so the two percent bump exceeds the 1,000 rounding unit),
`submit_offer` counters at the midpoint rounded down to the nearest 1,000,
bumped to `int((amount * 1.02)/1000)*1000` when the midpoint lands at or
below the offer; the counter is strictly greater than the offer, is
recorded as both `last_agent_offer` and `final_price`, and the step
becomes `countered` — but the counter is not guaranteed to stay below
`original_price` (see the counterexample). -/
theorem claim_C4_amended (ctx : Ctx) (a : ℚ)
    (hgate : lao_gate ctx.last_agent_offer a = false)
    (hfl : ctx.floor_price ≤ a) (hlt : a < ctx.original_price)
    (hbig : 50000 ≤ a) :
    ∃ c, handle_negotiation ctx a =
        ({ ctx with final_price := some c, step := .countered, last_agent_offer := some c }, .counterAt c) ∧
      a < c :=
  counter_spec ctx a hgate hfl hlt hbig

/-- Witness for the amended C4: offer 900,000 against price 1,000,000
yields the midpoint counter 950,000. -/
theorem claim_C4_amended_witness :
    (lao_gate (initiate_negotiation 1000000).last_agent_offer 900000 = false ∧
      (initiate_negotiation 1000000).floor_price ≤ 900000 ∧
      (900000:ℚ) < (initiate_negotiation 1000000).original_price ∧
      (50000:ℚ) ≤ 900000) ∧
    (∃ c, handle_negotiation (initiate_negotiation 1000000) 900000 =
        ({ initiate_negotiation 1000000 with final_price := some c, step := .countered, last_agent_offer := some c }, .counterAt c) ∧
      (900000:ℚ) < c) :=
  ⟨⟨rfl, by norm_num [initiate_negotiation, NEGOTIATION_MAX_DISCOUNT],
      by norm_num [initiate_negotiation], by norm_num⟩,
   claim_C4_amended (initiate_negotiation 1000000) 900000 rfl
     (by norm_num [initiate_negotiation, NEGOTIATION_MAX_DISCOUNT])
     (by norm_num [initiate_negotiation]) (by norm_num)⟩

/-- Outcome order of one `submit_offer` transition: 0 for the below-floor
rejection report, 1 for a counter-offer, 2 for an acceptance.  Messages
other handlers produce are ranked 0; `_handle_negotiation` never emits
them. -/
def outcomeRank : Msg → ℕ
  | .acceptAtOffer _ => 2
  | .acceptAtAsking _ => 2
  | .counterAt _ => 1
  | _ => 0

/-- The outcome rank of `_handle_negotiation` is decided by the three
branch conditions of lines 258-267, in source order. -/
theorem outcomeRank_handle_negotiation (ctx : Ctx) (a : ℚ) :
    outcomeRank (handle_negotiation ctx a).2 =
      if lao_gate ctx.last_agent_offer a = true then 2
      else if ctx.original_price ≤ a then 2
      else if ctx.floor_price ≤ a then 1
      else 0 := by
  simp only [handle_negotiation, ge_iff_le]
  split_ifs <;> rfl

/-- Claim C6 (confirmed): for a fixed session state, the outcome of
`submit_offer` is monotone non-decreasing in the offered amount, in the
order rejection-report < counter-offer < acceptance: a strictly higher
offer never produces a worse (lower) outcome than a lower one. -/
theorem claim_C6 (ctx : Ctx) (a1 a2 : ℚ) (h : a1 < a2) :
    outcomeRank (handle_negotiation ctx a1).2 ≤
      outcomeRank (handle_negotiation ctx a2).2 := by
  have hle : a1 ≤ a2 := le_of_lt h
  rw [outcomeRank_handle_negotiation, outcomeRank_handle_negotiation]
  split_ifs with g1 g2 g3 g4 g5 g6 g7 g8 g9 <;>
    first
      | omega
      | (exact absurd (lao_gate_mono hle g1) (by simp_all))
      | linarith

/-- Witness for C6: offers 900,000 and 980,000 against a fresh session at
1,000,000. -/
theorem claim_C6_witness :
    (900000:ℚ) < 980000 ∧
    outcomeRank (handle_negotiation (initiate_negotiation 1000000) 900000).2 ≤
      outcomeRank (handle_negotiation (initiate_negotiation 1000000) 980000).2 :=
  ⟨by norm_num, claim_C6 (initiate_negotiation 1000000) 900000 980000 (by norm_num)⟩

/-! ### The negotiation floor invariant -/

/-- Invariant of a live negotiation context for a car listed at `p`: the
price fields are the ones `initiate_negotiation` computed, and every
recorded agent offer or final price sits at or above the floor. -/
def CtxInv (p : ℚ) (ctx : Ctx) : Prop :=
  ctx.original_price = p ∧
  ctx.floor_price = p * (1 - NEGOTIATION_MAX_DISCOUNT) ∧
  (∀ x, ctx.final_price = some x → ctx.floor_price ≤ x) ∧
  (∀ x, ctx.last_agent_offer = some x → ctx.floor_price ≤ x)

/-- The invariant lifted to the agent state: it binds whatever live
context is present. -/
def StInv (p : ℚ) (s : AgentState) : Prop :=
  ∀ ctx, s.negotiation_context = some ctx → CtxInv p ctx

/-- A message respects the floor `f` when every price it quotes as an
agent offer or a concluded deal is at least `f`. -/
def msgFloorOK (f : ℚ) : Msg → Prop
  | .acceptAtOffer q => f ≤ q
  | .acceptAtAsking q => f ≤ q
  | .counterAt q => f ≤ q
  | .floorReport q => f ≤ q
  | .discountOpening q => f ≤ q
  | .dealConfirmed q => f ≤ q
  | _ => True

theorem lao_gate_true {lao : Option ℚ} {a : ℚ} (h : lao_gate lao a = true) :
    ∃ x, lao = some x ∧ x ≠ 0 ∧ x ≤ a := by
  cases lao with
  | none => simp [lao_gate] at h
  | some x =>
    simp only [lao_gate, Bool.and_eq_true, decide_eq_true_eq] at h
    exact ⟨x, rfl, h.1, h.2⟩

/-- One `submit_offer` transition preserves the floor invariant and emits
a floor-respecting message, for cars listed at 100,000 or more. -/
theorem handle_negotiation_floor {p : ℚ} (hp : 100000 ≤ p) {ctx : Ctx}
    (hinv : CtxInv p ctx) (a : ℚ) :
    CtxInv p (handle_negotiation ctx a).1 ∧
    msgFloorOK (p * (1 - NEGOTIATION_MAX_DISCOUNT)) (handle_negotiation ctx a).2 := by
  obtain ⟨hop, hfp, hfin, hlao⟩ := hinv
  have hfl_val : ctx.floor_price = p * (1 - NEGOTIATION_MAX_DISCOUNT) := hfp
  have hfloor_le_p : ctx.floor_price ≤ ctx.original_price := by
    rw [hop, hfp, NEGOTIATION_MAX_DISCOUNT]; nlinarith
  by_cases hg : lao_gate ctx.last_agent_offer a = true
  · obtain ⟨x, hx, _, hxa⟩ := lao_gate_true hg
    have hfx : ctx.floor_price ≤ x := hlao x hx
    simp only [handle_negotiation, hg, if_true]
    refine ⟨⟨hop, hfp, ?_, ?_⟩, ?_⟩
    · intro y hy
      simp only [Option.some.injEq] at hy
      subst hy; linarith
    · exact fun y hy => hlao y hy
    · show p * (1 - NEGOTIATION_MAX_DISCOUNT) ≤ a
      rw [← hfp]; linarith
  · replace hg : lao_gate ctx.last_agent_offer a = false := by
      simpa using hg
    by_cases h2 : ctx.original_price ≤ a
    · simp only [handle_negotiation, hg, Bool.false_eq_true, if_false, ge_iff_le,
        if_pos h2]
      refine ⟨⟨hop, hfp, ?_, ?_⟩, ?_⟩
      · intro y hy
        simp only [Option.some.injEq] at hy
        subst hy; exact hfloor_le_p
      · exact fun y hy => hlao y hy
      · show p * (1 - NEGOTIATION_MAX_DISCOUNT) ≤ ctx.original_price
        rw [← hfp]; exact hfloor_le_p
    · by_cases h3 : ctx.floor_price ≤ a
      · have hbig : (50000:ℚ) ≤ a := by
          rw [hfp, NEGOTIATION_MAX_DISCOUNT] at h3; nlinarith
        obtain ⟨c, hc, hac⟩ :=
          counter_spec ctx a hg h3 (not_le.mp h2) hbig
        rw [hc]
        have hflc : ctx.floor_price ≤ c := by linarith
        refine ⟨⟨hop, hfp, ?_, ?_⟩, ?_⟩
        · intro y hy
          simp only [Option.some.injEq] at hy
          subst hy; exact hflc
        · intro y hy
          simp only [Option.some.injEq] at hy
          subst hy; exact hflc
        · show p * (1 - NEGOTIATION_MAX_DISCOUNT) ≤ c
          rw [← hfp]; exact hflc
      · simp only [handle_negotiation, hg, Bool.false_eq_true, if_false, ge_iff_le,
          if_neg h2, if_neg h3]
        refine ⟨⟨hop, hfp, ?_, ?_⟩, ?_⟩
        · intro y hy
          simp only [Option.some.injEq] at hy
          subst hy
          exact le_rfl
        · intro y hy
          simp only [Option.some.injEq] at hy
          subst hy
          exact le_rfl
        · show p * (1 - NEGOTIATION_MAX_DISCOUNT) ≤ ctx.floor_price
          rw [← hfp]

/-- The discount inquiry preserves the floor invariant: the opening
discount `int((price * 0.97)/1000)*1000` stays above the twelve percent
floor once the listed price is at least 100,000. -/
theorem handle_discount_floor {p : ℚ} (hp : 100000 ≤ p) {ctx : Ctx}
    (hinv : CtxInv p ctx) :
    CtxInv p (handle_discount_inquiry ctx).1 ∧
    msgFloorOK (p * (1 - NEGOTIATION_MAX_DISCOUNT)) (handle_discount_inquiry ctx).2 := by
  obtain ⟨hop, hfp, hfin, hlao⟩ := hinv
  have hp' : (100000:ℚ) ≤ ctx.original_price := by rw [hop]; exact hp
  have h0 : (0:ℚ) ≤ ctx.original_price * 0.97 := by nlinarith
  have hlb : ctx.original_price * 0.97 - 1000 < floor1000 (ctx.original_price * 0.97) :=
    sub_lt_floor1000 h0
  have hfl : ctx.floor_price ≤ floor1000 (ctx.original_price * 0.97) := by
    rw [hfp, ← hop, NEGOTIATION_MAX_DISCOUNT]
    linarith
  simp only [handle_discount_inquiry]
  refine ⟨⟨hop, hfp, ?_, ?_⟩, ?_⟩
  · exact fun y hy => hfin y hy
  · intro y hy
    simp only [Option.some.injEq] at hy
    subst hy; exact hfl
  · show p * (1 - NEGOTIATION_MAX_DISCOUNT) ≤ floor1000 (ctx.original_price * 0.97)
    rw [← hfp]; exact hfl

/-- `accept()` preserves the floor invariant and, when it confirms a deal,
confirms it at or above the floor. -/
theorem handle_accept_floor {p : ℚ} (hp : 100000 ≤ p) {s : AgentState}
    (hinv : StInv p s) :
    StInv p (handle_accept_offer s).1 ∧
    msgFloorOK (p * (1 - NEGOTIATION_MAX_DISCOUNT)) (handle_accept_offer s).2 := by
  cases hsc : s.negotiation_context with
  | none =>
    simp only [handle_accept_offer, hsc]
    exact ⟨fun ctx h => hinv ctx (hsc ▸ h), trivial⟩
  | some ctx =>
    obtain ⟨hop, hfp, hfin, hlao⟩ := hinv ctx hsc
    have hfloor_le_p : ctx.floor_price ≤ p := by
      rw [hfp, NEGOTIATION_MAX_DISCOUNT]; nlinarith
    simp only [handle_accept_offer, hsc]
    by_cases hsub : truthy ctx.final_price = false ∧ ctx.step = Step.initial
    · rw [if_pos hsub]
      have hptr : truthy (some ctx.original_price) = true := by
        simp only [truthy, decide_eq_true_eq]
        rw [hop]; intro h; rw [h] at hp; norm_num at hp
      rw [if_pos hptr]
      refine ⟨fun ctx' h => by simp at h, ?_⟩
      show p * (1 - NEGOTIATION_MAX_DISCOUNT) ≤ (some ctx.original_price).getD 0
      simp only [Option.getD_some]
      rw [← hfp, hop]; exact hop ▸ hfloor_le_p
    · rw [if_neg hsub]
      by_cases ht : truthy ctx.final_price = true
      · rw [if_pos ht]
        obtain ⟨x, hx⟩ : ∃ x, ctx.final_price = some x := by
          cases hcf : ctx.final_price with
          | none => rw [hcf] at ht; simp [truthy] at ht
          | some x => exact ⟨x, rfl⟩
        refine ⟨fun ctx' h => by simp at h, ?_⟩
        show p * (1 - NEGOTIATION_MAX_DISCOUNT) ≤ ctx.final_price.getD 0
        rw [hx, Option.getD_some, ← hfp]
        exact hfin x hx
      · rw [if_neg ht]
        exact ⟨fun ctx' h => hinv ctx' (hsc ▸ h), trivial⟩

/-- Every single command preserves the floor invariant and every message
it emits respects the floor (cars listed at 100,000 or more). -/
theorem agent_step_floor {p : ℚ} (hp : 100000 ≤ p) {s : AgentState}
    (hinv : StInv p s) (c : Cmd) :
    StInv p (agent_step s c).1 ∧
    ∀ m, (agent_step s c).2 = some m →
      msgFloorOK (p * (1 - NEGOTIATION_MAX_DISCOUNT)) m := by
  cases c with
  | submit_offer a =>
    cases hsc : s.negotiation_context with
    | none =>
      simp only [agent_step, hsc]
      exact ⟨fun ctx h => hinv ctx (hsc ▸ h), fun m hm => by simp at hm⟩
    | some ctx =>
      obtain ⟨h1, h2⟩ := handle_negotiation_floor hp (hinv ctx hsc) a
      simp only [agent_step, hsc]
      refine ⟨fun ctx' h => ?_, fun m hm => ?_⟩
      · simp only [Option.some.injEq] at h
        exact h ▸ h1
      · simp only [Option.some.injEq] at hm
        exact hm ▸ h2
  | discount_inquiry =>
    cases hsc : s.negotiation_context with
    | none =>
      simp only [agent_step, hsc]
      refine ⟨fun ctx h => hinv ctx (hsc ▸ h), fun m hm => ?_⟩
      simp only [Option.some.injEq] at hm
      exact hm ▸ trivial
    | some ctx =>
      obtain ⟨h1, h2⟩ := handle_discount_floor hp (hinv ctx hsc)
      simp only [agent_step, hsc]
      refine ⟨fun ctx' h => ?_, fun m hm => ?_⟩
      · simp only [Option.some.injEq] at h
        exact h ▸ h1
      · simp only [Option.some.injEq] at hm
        exact hm ▸ h2
  | accept_offer =>
    obtain ⟨h1, h2⟩ := handle_accept_floor hp hinv
    simp only [agent_step]
    refine ⟨h1, fun m hm => ?_⟩
    simp only [Option.some.injEq] at hm
    exact hm ▸ h2
  | reject_offer =>
    simp only [agent_step]
    exact ⟨fun ctx h => by simp at h, fun m hm => by simp at hm⟩

/-- Running any command sequence from an invariant-satisfying state keeps
the invariant and emits only floor-respecting messages. -/
theorem run_floor {p : ℚ} (hp : 100000 ≤ p) :
    ∀ (cmds : List Cmd) (s : AgentState), StInv p s →
      StInv p (run s cmds).1 ∧
      ∀ m ∈ (run s cmds).2, msgFloorOK (p * (1 - NEGOTIATION_MAX_DISCOUNT)) m := by
  intro cmds
  induction cmds with
  | nil =>
    intro s hs
    exact ⟨hs, by simp [run]⟩
  | cons c cs ih =>
    intro s hs
    obtain ⟨h1, h2⟩ := agent_step_floor hp hs c
    obtain ⟨h3, h4⟩ := ih _ h1
    refine ⟨h3, fun m hm => ?_⟩
    simp only [run, List.mem_append] at hm
    rcases hm with hm | hm
    · cases ho : (agent_step s c).2 with
      | none => rw [ho] at hm; simp at hm
      | some m' =>
        rw [ho] at hm
        simp only [Option.toList_some, List.mem_singleton] at hm
        exact hm ▸ h2 m' ho
    · exact h4 m hm

/-- Claim C5, counterexample: the floor is not respected for small listed
prices.  On a fresh session for a car listed at 2,000 (floor 1,760), the
offer 1,800 is in the negotiable band, yet the 1,000-unit rounding drives
the counter-offer to 1,000 — strictly below the floor. -/
theorem claim_C5_counterexample :
    (run (initState 2000) [Cmd.submit_offer 1800]).2 = [Msg.counterAt 1000] ∧
    (1000:ℚ) < (initiate_negotiation 2000).floor_price := by
  constructor
  · norm_num [run, agent_step, initState, handle_negotiation, initiate_negotiation,
      lao_gate, floor1000, pyInt, NEGOTIATION_MAX_DISCOUNT]
  · norm_num [initiate_negotiation, NEGOTIATION_MAX_DISCOUNT]

/-- Claim C5, amended: for every session opened on a car listed at
100,000 or more (all demo inventory prices are at least 300,000) and every
sequence of transitions, no counter-offer, discount opening, floor report,
or acceptance-established final price is ever below `floor_price =
original_price × (1 − max_discount)`; for smaller listed prices the
1,000-unit rounding can undercut the floor (see the counterexample). -/
theorem claim_C5_amended (p : ℚ) (hp : 100000 ≤ p) (cmds : List Cmd) :
    (∀ m ∈ (run (initState p) cmds).2,
      msgFloorOK (p * (1 - NEGOTIATION_MAX_DISCOUNT)) m) ∧
    ∀ ctx, (run (initState p) cmds).1.negotiation_context = some ctx →
      (∀ x, ctx.final_price = some x → p * (1 - NEGOTIATION_MAX_DISCOUNT) ≤ x) ∧
      (∀ x, ctx.last_agent_offer = some x → p * (1 - NEGOTIATION_MAX_DISCOUNT) ≤ x) := by
  have hinit : StInv p (initState p) := by
    intro ctx hctx
    simp only [initState, Option.some.injEq] at hctx
    subst hctx
    refine ⟨rfl, rfl, ?_, ?_⟩ <;> intro x hx <;> simp [initiate_negotiation] at hx
  obtain ⟨h1, h2⟩ := run_floor hp cmds (initState p) hinit
  refine ⟨h2, fun ctx hc => ?_⟩
  obtain ⟨ho, hf, hfin, hlao⟩ := h1 ctx hc
  exact ⟨fun x hx => hf ▸ hfin x hx, fun x hx => hf ▸ hlao x hx⟩

/-- Witness for the amended C5: a realistic three-step trace on a car
listed at 1,000,000. -/
theorem claim_C5_amended_witness :
    (100000:ℚ) ≤ 1000000 ∧
    ((∀ m ∈ (run (initState 1000000)
          [Cmd.submit_offer 950000, Cmd.accept_offer]).2,
        msgFloorOK ((1000000:ℚ) * (1 - NEGOTIATION_MAX_DISCOUNT)) m) ∧
      ∀ ctx, (run (initState 1000000)
          [Cmd.submit_offer 950000, Cmd.accept_offer]).1.negotiation_context =
            some ctx →
        (∀ x, ctx.final_price = some x →
          (1000000:ℚ) * (1 - NEGOTIATION_MAX_DISCOUNT) ≤ x) ∧
        (∀ x, ctx.last_agent_offer = some x →
          (1000000:ℚ) * (1 - NEGOTIATION_MAX_DISCOUNT) ≤ x)) :=
  ⟨by norm_num,
   claim_C5_amended 1000000 (by norm_num) [Cmd.submit_offer 950000, Cmd.accept_offer]⟩

end Otoz
